import Mathlib

/-!
Shallow embedding of the road-status inference core of
`weather_mud_estimator` (`src/utils.py`): the instant dryness check
`is_road_dry`, the stateful per-day classifier `road_status_per_day`,
and the forward estimator `estimate_next_dry_day`.

Daily records are rows of the daily dataframe; the fields the core reads
are `date_day` (a calendar date, modelled as a natural number),
`rain` and `relative_humidity_2m` (real-valued aggregates, modelled as
rationals).  `temperature_2m` is carried for display only and is never
read by the core functions.
-/

structure DailyRecord where
  date_day : Nat
  rain : ℚ
  relative_humidity_2m : ℚ
  temperature_2m : ℚ
deriving DecidableEq

inductive RoadStatus where
  | Dry
  | Mud
deriving DecidableEq

/-- `daily_df.sort_values("date_day")`: sort rows ascending by day. -/
def sortByDay (l : List DailyRecord) : List DailyRecord :=
  l.mergeSort (fun a b => a.date_day ≤ b.date_day)

/-- `.tail(n)` on a dataframe: the last `n` rows (all rows when fewer). -/
def lastN (n : Nat) (l : List α) : List α :=
  l.drop (l.length - n)

/-- `is_road_dry(daily_df)` from `src/utils.py`:
`last_days = daily_df.sort_values("date_day").tail(2)`;
dry iff every row of that window has `rain <= 5` and
`relative_humidity_2m <= 90`. -/
def is_road_dry (daily_df : List DailyRecord) : Bool :=
  let last_days := lastN 2 (sortByDay daily_df)
  let rain_ok := last_days.all (fun r => decide (r.rain ≤ 5))
  let humidity_ok := last_days.all (fun r => decide (r.relative_humidity_2m ≤ 90))
  rain_ok && humidity_ok

/-- The body of the classifier loop in `road_status_per_day`, one day:
given the state `(is_muddy, days_since_rain)` before the day and the
day's record, produce the label for the day and the state after it. -/
def step (is_muddy : Bool) (days_since_rain : Nat) (r : DailyRecord) :
    RoadStatus × Bool × Nat :=
  if 5 < r.rain then
    (RoadStatus.Mud, true, 0)
  else if is_muddy then
    if days_since_rain + 1 < 2 ∨ 90 < r.relative_humidity_2m then
      (RoadStatus.Mud, true, days_since_rain + 1)
    else
      (RoadStatus.Dry, false, days_since_rain + 1)
  else
    (RoadStatus.Dry, is_muddy, days_since_rain)

/-- The classifier loop of `road_status_per_day`, exposing the internal
state: entry `i` is `(label of day i, is_muddy after day i,
days_since_rain after day i)`. -/
def roadLoop (is_muddy : Bool) (days_since_rain : Nat) :
    List DailyRecord → List (RoadStatus × Bool × Nat)
  | [] => []
  | r :: rs =>
    let e := step is_muddy days_since_rain r
    e :: roadLoop e.2.1 e.2.2 rs

/-- One row of the dataframe returned by `road_status_per_day`: the input
row plus the added `heavy_rain`, `high_humidity` and `road_status`
columns. -/
structure AnnotatedRecord where
  row : DailyRecord
  heavy_rain : Bool
  high_humidity : Bool
  road_status : RoadStatus
deriving DecidableEq

/-- The classifier loop again, producing the returned rows (the state is
internal and discarded). -/
def roadAnnotate (is_muddy : Bool) (days_since_rain : Nat) :
    List DailyRecord → List AnnotatedRecord
  | [] => []
  | r :: rs =>
    let e := step is_muddy days_since_rain r
    ⟨r, decide (5 < r.rain), decide (90 < r.relative_humidity_2m), e.1⟩ ::
      roadAnnotate e.2.1 e.2.2 rs

/-- `road_status_per_day(daily_df)` from `src/utils.py`: walk the rows in
the order given (the function does not sort), starting from
`is_muddy = False`, `days_since_rain = 99`. -/
def road_status_per_day (daily_df : List DailyRecord) : List AnnotatedRecord :=
  roadAnnotate false 99 daily_df

/-- `estimate_next_dry_day(daily_df)` from `src/utils.py`: scan rows in
dataframe order, return the date of the first row with
`row_date >= today`, `rain <= 5` and `relative_humidity_2m <= 90`, else
`None`.  The source reads `today` from the ambient clock
(`pd.Timestamp.utcnow().date()`); the embedding passes it explicitly. -/
def estimate_next_dry_day (daily_df : List DailyRecord) (today : Nat) :
    Option Nat :=
  match daily_df with
  | [] => none
  | row :: rest =>
    if today ≤ row.date_day ∧ row.rain ≤ 5 ∧ row.relative_humidity_2m ≤ 90 then
      some row.date_day
    else
      estimate_next_dry_day rest today

/-! ### Basic structure lemmas on the classifier loop -/

theorem roadLoop_length (m : Bool) (d : Nat) (l : List DailyRecord) :
    (roadLoop m d l).length = l.length := by
  induction l generalizing m d with
  | nil => rfl
  | cons r rs ih => simp [roadLoop, ih]

theorem roadAnnotate_map_row (m : Bool) (d : Nat) (l : List DailyRecord) :
    (roadAnnotate m d l).map (fun a => a.row) = l := by
  induction l generalizing m d with
  | nil => rfl
  | cons r rs ih => simp [roadAnnotate, ih]

theorem roadAnnotate_status_eq_roadLoop (m : Bool) (d : Nat)
    (l : List DailyRecord) :
    (roadAnnotate m d l).map (fun a => a.road_status) =
      (roadLoop m d l).map (fun e => e.1) := by
  induction l generalizing m d with
  | nil => rfl
  | cons r rs ih => simp [roadAnnotate, roadLoop, ih]

theorem annotate_status_getElem (m : Bool) (d : Nat) (l : List DailyRecord)
    (i : Nat) :
    ((roadAnnotate m d l)[i]?).map (fun a => a.road_status) =
      ((roadLoop m d l)[i]?).map (fun e => e.1) := by
  rw [← List.getElem?_map (fun a : AnnotatedRecord => a.road_status),
    ← List.getElem?_map (fun e : RoadStatus × Bool × Nat => e.1),
    roadAnnotate_status_eq_roadLoop]

theorem roadLoop_rain (m : Bool) (d : Nat) (l : List DailyRecord) (i : Nat)
    (r : DailyRecord) (hget : l[i]? = some r) (hrain : 5 < r.rain) :
    (roadLoop m d l)[i]? = some (RoadStatus.Mud, true, 0) := by
  induction l generalizing m d i with
  | nil => simp at hget
  | cons a t ih =>
    cases i with
    | zero =>
      simp only [List.getElem?_cons_zero, Option.some.injEq] at hget
      subst hget
      simp [roadLoop, step, hrain]
    | succ j =>
      simp only [List.getElem?_cons_succ] at hget
      simpa [roadLoop] using ih _ _ j hget

theorem roadLoop_succ (m : Bool) (d : Nat) (l : List DailyRecord) (i : Nat)
    (e : RoadStatus × Bool × Nat) (r : DailyRecord)
    (he : (roadLoop m d l)[i]? = some e) (hr : l[i + 1]? = some r) :
    (roadLoop m d l)[i + 1]? = some (step e.2.1 e.2.2 r) := by
  induction l generalizing m d i with
  | nil => simp at hr
  | cons a t ih =>
    cases i with
    | zero =>
      simp only [roadLoop, List.getElem?_cons_zero, Option.some.injEq] at he
      simp only [List.getElem?_cons_succ] at hr
      subst he
      cases t with
      | nil => simp at hr
      | cons b t2 =>
        simp only [List.getElem?_cons_zero, Option.some.injEq] at hr
        subst hr
        simp [roadLoop]
    | succ j =>
      simp only [roadLoop, List.getElem?_cons_succ] at he hr ⊢
      exact ih _ _ j he hr

/-- C1: for every input sequence and every index `i`, if `rain` at day `i`
is strictly greater than 5 then `road_status_per_day` labels day `i`
`Mud`, unconditionally, and the internal state after day `i` is
`is_muddy = true`, `days_since_rain = 0`. -/
theorem heavy_rain_forces_mud (l : List DailyRecord) (i : Nat)
    (r : DailyRecord) (hget : l[i]? = some r) (hrain : 5 < r.rain) :
    ((road_status_per_day l)[i]?).map (fun a => a.road_status) =
        some RoadStatus.Mud ∧
    (roadLoop false 99 l)[i]? = some (RoadStatus.Mud, true, 0) := by
  have h := roadLoop_rain false 99 l i r hget hrain
  refine ⟨?_, h⟩
  rw [road_status_per_day, annotate_status_getElem, h]
  rfl

theorem heavy_rain_forces_mud_witness :
    ([⟨0, 0, 50, 0⟩, ⟨1, 8, 60, 0⟩] : List DailyRecord)[1]? =
        some ⟨1, 8, 60, 0⟩ ∧
    5 < (⟨1, 8, 60, 0⟩ : DailyRecord).rain ∧
    ((road_status_per_day [⟨0, 0, 50, 0⟩, ⟨1, 8, 60, 0⟩])[1]?).map
        (fun a => a.road_status) = some RoadStatus.Mud ∧
    (roadLoop false 99 [⟨0, 0, 50, 0⟩, ⟨1, 8, 60, 0⟩])[1]? =
        some (RoadStatus.Mud, true, 0) := by
  have h := heavy_rain_forces_mud [⟨0, 0, 50, 0⟩, ⟨1, 8, 60, 0⟩] 1
    ⟨1, 8, 60, 0⟩ (by decide) (by decide)
  exact ⟨by decide, by decide, h.1, h.2⟩

/-- C2: if day `i` has `rain > 5` (so it is labeled `Mud` with the state
reset), then the next record of the sequence, day `i + 1`, is also
labeled `Mud` — either through the grace period when its own rain is
at most 5, or through a fresh heavy-rain reset. -/
theorem grace_period_next_day_mud (l : List DailyRecord) (i : Nat)
    (r r' : DailyRecord) (h1 : l[i]? = some r) (hrain : 5 < r.rain)
    (h2 : l[i + 1]? = some r') :
    ((road_status_per_day l)[i + 1]?).map (fun a => a.road_status) =
      some RoadStatus.Mud := by
  have he := roadLoop_rain false 99 l i r h1 hrain
  have hs := roadLoop_succ false 99 l i _ r' he h2
  have hmud : (step true 0 r').1 = RoadStatus.Mud := by
    by_cases hc : 5 < r'.rain
    · simp [step, hc]
    · simp [step, hc]
  rw [road_status_per_day, annotate_status_getElem, hs]
  simp [hmud]

theorem grace_period_next_day_mud_witness :
    ([⟨0, 8, 60, 0⟩, ⟨1, 0, 40, 0⟩] : List DailyRecord)[0]? =
        some ⟨0, 8, 60, 0⟩ ∧
    5 < (⟨0, 8, 60, 0⟩ : DailyRecord).rain ∧
    ([⟨0, 8, 60, 0⟩, ⟨1, 0, 40, 0⟩] : List DailyRecord)[0 + 1]? =
        some ⟨1, 0, 40, 0⟩ ∧
    ((road_status_per_day [⟨0, 8, 60, 0⟩, ⟨1, 0, 40, 0⟩])[0 + 1]?).map
        (fun a => a.road_status) = some RoadStatus.Mud :=
  ⟨by decide, by decide, by decide,
    grace_period_next_day_mud [⟨0, 8, 60, 0⟩, ⟨1, 0, 40, 0⟩] 0
      ⟨0, 8, 60, 0⟩ ⟨1, 0, 40, 0⟩ (by decide) (by decide) (by decide)⟩

/-- C3: once the classifier is in the muddy state with counter `d` after
day `i`, a following day with `rain ≤ 5` increments the counter and is
labeled `Mud` exactly when `d + 1 < 2` or its humidity exceeds 90 (so mud
persists while humidity stays above 90), and is labeled `Dry` — clearing
the muddy state — exactly when `d + 1 ≥ 2` and humidity is at most 90. -/
theorem muddy_persistence_and_clearing (l : List DailyRecord) (i : Nat)
    (st : RoadStatus) (d : Nat) (r : DailyRecord)
    (hstate : (roadLoop false 99 l)[i]? = some (st, true, d))
    (hnext : l[i + 1]? = some r) (hrain : r.rain ≤ 5) :
    ((d + 1 < 2 ∨ 90 < r.relative_humidity_2m) →
      (roadLoop false 99 l)[i + 1]? = some (RoadStatus.Mud, true, d + 1) ∧
      ((road_status_per_day l)[i + 1]?).map (fun a => a.road_status) =
        some RoadStatus.Mud) ∧
    ((2 ≤ d + 1 ∧ r.relative_humidity_2m ≤ 90) →
      (roadLoop false 99 l)[i + 1]? = some (RoadStatus.Dry, false, d + 1) ∧
      ((road_status_per_day l)[i + 1]?).map (fun a => a.road_status) =
        some RoadStatus.Dry) := by
  have hs := roadLoop_succ false 99 l i _ r hstate hnext
  have hnr : ¬ 5 < r.rain := not_lt.mpr hrain
  constructor
  · intro hcond
    have hstep : step true d r = (RoadStatus.Mud, true, d + 1) := by
      simp [step, hnr, hcond]
    rw [hstep] at hs
    refine ⟨hs, ?_⟩
    rw [road_status_per_day, annotate_status_getElem, hs]
    rfl
  · rintro ⟨h2, hhum⟩
    have hcond : ¬ (d + 1 < 2 ∨ 90 < r.relative_humidity_2m) := by
      push_neg
      exact ⟨h2, hhum⟩
    have hstep : step true d r = (RoadStatus.Dry, false, d + 1) := by
      simp [step, hnr, hcond]
    rw [hstep] at hs
    refine ⟨hs, ?_⟩
    rw [road_status_per_day, annotate_status_getElem, hs]
    rfl

theorem muddy_persistence_and_clearing_witness :
    (roadLoop false 99
        [⟨0, 8, 95, 0⟩, ⟨1, 0, 95, 0⟩, ⟨2, 0, 95, 0⟩, ⟨3, 0, 50, 0⟩])[1]? =
      some (RoadStatus.Mud, true, 1) ∧
    ([⟨0, 8, 95, 0⟩, ⟨1, 0, 95, 0⟩, ⟨2, 0, 95, 0⟩, ⟨3, 0, 50, 0⟩] :
        List DailyRecord)[1 + 1]? = some ⟨2, 0, 95, 0⟩ ∧
    (⟨2, 0, 95, 0⟩ : DailyRecord).rain ≤ 5 ∧
    (1 + 1 < 2 ∨ 90 < (⟨2, 0, 95, 0⟩ : DailyRecord).relative_humidity_2m) ∧
    (roadLoop false 99
        [⟨0, 8, 95, 0⟩, ⟨1, 0, 95, 0⟩, ⟨2, 0, 95, 0⟩, ⟨3, 0, 50, 0⟩])[1 + 1]? =
      some (RoadStatus.Mud, true, 1 + 1) := by
  refine ⟨by decide, by decide, by decide, by decide, ?_⟩
  have h := muddy_persistence_and_clearing
    [⟨0, 8, 95, 0⟩, ⟨1, 0, 95, 0⟩, ⟨2, 0, 95, 0⟩, ⟨3, 0, 50, 0⟩] 1
    RoadStatus.Mud 1 ⟨2, 0, 95, 0⟩ (by decide) (by decide) (by decide)
  exact (h.1 (by decide)).1

/-- C4: for every non-empty sequence, `is_road_dry` returns `true` iff
every record of the last-2-by-day window satisfies `rain ≤ 5` and
`relative_humidity_2m ≤ 90`, and returns `false` iff some record of that
window has `rain > 5` or `relative_humidity_2m > 90`. -/
theorem is_road_dry_window_iff (l : List DailyRecord) (h : l ≠ []) :
    (is_road_dry l = true ↔
      ∀ r ∈ lastN 2 (sortByDay l),
        r.rain ≤ 5 ∧ r.relative_humidity_2m ≤ 90) ∧
    (is_road_dry l = false ↔
      ∃ r ∈ lastN 2 (sortByDay l),
        5 < r.rain ∨ 90 < r.relative_humidity_2m) := by
  have htrue : is_road_dry l = true ↔
      ∀ r ∈ lastN 2 (sortByDay l),
        r.rain ≤ 5 ∧ r.relative_humidity_2m ≤ 90 := by
    simp only [is_road_dry, Bool.and_eq_true, List.all_eq_true,
      decide_eq_true_eq]
    constructor
    · rintro ⟨ha, hb⟩ r hr
      exact ⟨ha r hr, hb r hr⟩
    · intro hall
      exact ⟨fun r hr => (hall r hr).1, fun r hr => (hall r hr).2⟩
  refine ⟨htrue, ?_⟩
  constructor
  · intro hfalse
    have hnt : ¬ is_road_dry l = true := by simp [hfalse]
    rw [htrue] at hnt
    push_neg at hnt
    obtain ⟨r, hr, hp⟩ := hnt
    by_cases h5 : 5 < r.rain
    · exact ⟨r, hr, Or.inl h5⟩
    · exact ⟨r, hr, Or.inr (hp (not_lt.mp h5))⟩
  · rintro ⟨r, hr, hp⟩
    cases hb : is_road_dry l with
    | false => rfl
    | true =>
      have := (htrue.mp hb) r hr
      rcases hp with h5 | h90
      · exact absurd this.1 (not_le.mpr h5)
      · exact absurd this.2 (not_le.mpr h90)

theorem is_road_dry_window_iff_witness :
    ([⟨0, 3, 91, 0⟩] : List DailyRecord) ≠ [] ∧
    is_road_dry [⟨0, 3, 91, 0⟩] = false ∧
    (∃ r ∈ lastN 2 (sortByDay [⟨0, 3, 91, 0⟩]),
      5 < r.rain ∨ 90 < r.relative_humidity_2m) := by
  have h := is_road_dry_window_iff [⟨0, 3, 91, 0⟩] (by simp)
  have hw : lastN 2 (sortByDay [⟨0, 3, 91, 0⟩]) = [⟨0, 3, 91, 0⟩] := by
    simp [sortByDay, lastN]
  have hex : ∃ r ∈ lastN 2 (sortByDay [⟨0, 3, 91, 0⟩]),
      5 < r.rain ∨ 90 < r.relative_humidity_2m := by
    rw [hw]
    exact ⟨⟨0, 3, 91, 0⟩, by decide, by decide⟩
  exact ⟨by simp, h.2.mpr hex, hex⟩

/-- C5: on a sequence sorted ascending by day, `estimate_next_dry_day`
returns the day of the first record at or after `today` with `rain ≤ 5`
and `relative_humidity_2m ≤ 90`; any returned date is at least `today`,
and it returns `none` exactly when no record at or after `today` meets
the threshold. -/
theorem estimate_next_dry_day_correct (l : List DailyRecord) (today : Nat)
    (hsorted : l.Pairwise (fun a b => a.date_day ≤ b.date_day)) :
    (∀ d, estimate_next_dry_day l today = some d →
      today ≤ d ∧
      ∃ r ∈ l, r.date_day = d ∧ r.rain ≤ 5 ∧ r.relative_humidity_2m ≤ 90 ∧
        ∀ r' ∈ l, today ≤ r'.date_day → r'.rain ≤ 5 →
          r'.relative_humidity_2m ≤ 90 → d ≤ r'.date_day) ∧
    (estimate_next_dry_day l today = none ↔
      ∀ r ∈ l, ¬(today ≤ r.date_day ∧ r.rain ≤ 5 ∧
        r.relative_humidity_2m ≤ 90)) := by
  induction l with
  | nil => simp [estimate_next_dry_day]
  | cons a t ih =>
    rw [List.pairwise_cons] at hsorted
    obtain ⟨hhead, htail⟩ := hsorted
    have iht := ih htail
    by_cases hc : today ≤ a.date_day ∧ a.rain ≤ 5 ∧
        a.relative_humidity_2m ≤ 90
    · have heq : estimate_next_dry_day (a :: t) today = some a.date_day := by
        simp [estimate_next_dry_day, hc]
      constructor
      · intro d hd
        rw [heq, Option.some.injEq] at hd
        subst hd
        refine ⟨hc.1, a, List.mem_cons_self a t, rfl, hc.2.1, hc.2.2, ?_⟩
        intro r' hr' hle hrain hhum
        rcases List.mem_cons.mp hr' with h | h
        · subst h
          exact le_refl _
        · exact hhead r' h
      · rw [heq]
        constructor
        · intro h
          exact absurd h (by simp)
        · intro h
          exact absurd hc (h a (List.mem_cons_self a t))
    · have heq : estimate_next_dry_day (a :: t) today =
          estimate_next_dry_day t today := by
        simp [estimate_next_dry_day, hc]
      constructor
      · intro d hd
        rw [heq] at hd
        obtain ⟨hled, r, hrmem, hrd, hrrain, hrhum, hmin⟩ := iht.1 d hd
        refine ⟨hled, r, List.mem_cons_of_mem a hrmem, hrd, hrrain, hrhum, ?_⟩
        intro r' hr' hle hrain hhum
        rcases List.mem_cons.mp hr' with h | h
        · subst h
          exact absurd ⟨hle, hrain, hhum⟩ hc
        · exact hmin r' h hle hrain hhum
      · rw [heq, iht.2]
        constructor
        · intro h r hr
          rcases List.mem_cons.mp hr with hra | hrt
          · subst hra
            exact hc
          · exact h r hrt
        · intro h r hr
          exact h r (List.mem_cons_of_mem a hr)

theorem estimate_next_dry_day_correct_witness :
    ([⟨0, 9, 99, 0⟩, ⟨1, 8, 99, 0⟩, ⟨2, 9, 99, 0⟩, ⟨3, 2, 40, 0⟩] :
        List DailyRecord).Pairwise (fun a b => a.date_day ≤ b.date_day) ∧
    estimate_next_dry_day
        [⟨0, 9, 99, 0⟩, ⟨1, 8, 99, 0⟩, ⟨2, 9, 99, 0⟩, ⟨3, 2, 40, 0⟩] 2 =
      some 3 ∧
    (2 : Nat) ≤ 3 ∧
    ¬(estimate_next_dry_day
        [⟨0, 9, 99, 0⟩, ⟨1, 8, 99, 0⟩, ⟨2, 9, 99, 0⟩, ⟨3, 2, 40, 0⟩] 2 =
      none) := by
  have hsorted : ([⟨0, 9, 99, 0⟩, ⟨1, 8, 99, 0⟩, ⟨2, 9, 99, 0⟩,
      ⟨3, 2, 40, 0⟩] : List DailyRecord).Pairwise
      (fun a b => a.date_day ≤ b.date_day) := by decide
  have hval : estimate_next_dry_day
      [⟨0, 9, 99, 0⟩, ⟨1, 8, 99, 0⟩, ⟨2, 9, 99, 0⟩, ⟨3, 2, 40, 0⟩] 2 =
      some 3 := by decide
  have h := estimate_next_dry_day_correct
    [⟨0, 9, 99, 0⟩, ⟨1, 8, 99, 0⟩, ⟨2, 9, 99, 0⟩, ⟨3, 2, 40, 0⟩] 2 hsorted
  refine ⟨hsorted, hval, (h.1 3 hval).1, ?_⟩
  intro hnone
  have := h.2.mp hnone ⟨3, 2, 40, 0⟩ (by decide)
  exact this (by decide)

/-- C6: `road_status_per_day` preserves the input sequence exactly — same
records in the same order (hence same length and same day values); the
input fields are carried through unchanged, only annotations are added. -/
theorem road_status_per_day_frame (l : List DailyRecord) :
    (road_status_per_day l).map (fun a => a.row) = l ∧
    (road_status_per_day l).length = l.length ∧
    (road_status_per_day l).map (fun a => a.row.date_day) =
      l.map (fun r => r.date_day) := by
  have h := roadAnnotate_map_row false 99 l
  refine ⟨h, ?_, ?_⟩
  · simpa using congrArg List.length h
  · have h2 := congrArg (List.map (fun r : DailyRecord => r.date_day)) h
    rw [List.map_map] at h2
    simpa [Function.comp] using h2

/-- Two permuted lists of records that are sorted by day and have
pairwise-distinct days are equal. -/
theorem perm_sorted_nodup_day_eq (l₁ : List DailyRecord) :
    ∀ l₂ : List DailyRecord, l₁.Perm l₂ →
      l₁.map (fun r => r.date_day) = l₂.map (fun r => r.date_day) →
      (l₁.map (fun r => r.date_day)).Nodup → l₁ = l₂ := by
  induction l₁ with
  | nil =>
    intro l₂ hperm _ _
    exact hperm.nil_eq
  | cons a t₁ ih =>
    intro l₂ hperm hmap hnodup
    cases l₂ with
    | nil => simp at hmap
    | cons b t₂ =>
      simp only [List.map_cons, List.cons.injEq] at hmap
      obtain ⟨hday, htmap⟩ := hmap
      simp only [List.map_cons, List.nodup_cons] at hnodup
      obtain ⟨hnotin, hnd⟩ := hnodup
      have hab : a = b := by
        have hmem : a ∈ b :: t₂ := hperm.mem_iff.mp (List.mem_cons_self a t₁)
        rcases List.mem_cons.mp hmem with h | h
        · exact h
        · exfalso
          apply hnotin
          rw [htmap]
          exact List.mem_map_of_mem (fun r => r.date_day) h
      subst hab
      have hperm' := hperm.cons_inv
      rw [ih t₂ hperm' htmap hnd]

theorem sortByDay_sorted (l : List DailyRecord) :
    (sortByDay l).Pairwise (fun a b => a.date_day ≤ b.date_day) := by
  have h := @List.sorted_mergeSort DailyRecord
    (fun a b : DailyRecord => decide (a.date_day ≤ b.date_day))
    (fun a b c hab hbc => by
      simp only [decide_eq_true_eq] at hab hbc ⊢
      exact le_trans hab hbc)
    (fun a b => by
      simp only [Bool.or_eq_true, decide_eq_true_eq]
      exact Nat.le_total a.date_day b.date_day)
    l
  refine h.imp ?_
  intro a b hab
  simpa using hab

/-- Under a permutation with pairwise-distinct days, sorting by day gives
the same list. -/
theorem sortByDay_perm_eq (l₁ l₂ : List DailyRecord) (hperm : l₁.Perm l₂)
    (hnodup : (l₁.map (fun r => r.date_day)).Nodup) :
    sortByDay l₁ = sortByDay l₂ := by
  have hp1 : (sortByDay l₁).Perm l₁ := List.mergeSort_perm l₁ _
  have hp2 : (sortByDay l₂).Perm l₂ := List.mergeSort_perm l₂ _
  have hp : (sortByDay l₁).Perm (sortByDay l₂) :=
    (hp1.trans hperm).trans hp2.symm
  have hmap : (sortByDay l₁).map (fun r => r.date_day) =
      (sortByDay l₂).map (fun r => r.date_day) := by
    apply List.eq_of_perm_of_sorted (r := (· ≤ · : Nat → Nat → Prop))
      (hp.map (fun r => r.date_day))
    · exact List.pairwise_map.mpr (sortByDay_sorted l₁)
    · exact List.pairwise_map.mpr (sortByDay_sorted l₂)
  have hnd : ((sortByDay l₁).map (fun r => r.date_day)).Nodup :=
    (hp1.map (fun r => r.date_day)).nodup_iff.mpr hnodup
  exact perm_sorted_nodup_day_eq (sortByDay l₁) (sortByDay l₂) hp hmap hnd

/-- C7 counterexample: `road_status_per_day` does not sort before
processing.  The input `[day 1 (rain 8), day 0 (rain 0)]` is a
permutation of its date-sorted form `[day 0, day 1]`, yet day 0 is
labeled `Mud` when processed after the rain day and `Dry` in the sorted
run, so the per-day labels differ. -/
theorem classifier_sort_counterexample :
    sortByDay [⟨1, 8, 0, 0⟩, ⟨0, 0, 0, 0⟩] =
      [⟨0, 0, 0, 0⟩, ⟨1, 8, 0, 0⟩] ∧
    (road_status_per_day [⟨1, 8, 0, 0⟩, ⟨0, 0, 0, 0⟩]).map
        (fun a => (a.row.date_day, a.road_status)) =
      [(1, RoadStatus.Mud), (0, RoadStatus.Mud)] ∧
    (road_status_per_day [⟨0, 0, 0, 0⟩, ⟨1, 8, 0, 0⟩]).map
        (fun a => (a.row.date_day, a.road_status)) =
      [(0, RoadStatus.Dry), (1, RoadStatus.Mud)] ∧
    (RoadStatus.Mud ≠ RoadStatus.Dry) := by
  refine ⟨?_, by decide, by decide, by decide⟩
  simp [sortByDay, List.mergeSort, List.merge]

/-- C7 amended: only `is_road_dry` sorts by day before processing, so it
is insensitive to the input order: for any permutation of a sequence
with pairwise-distinct days it returns the same verdict.
`road_status_per_day` processes rows in the order given, and permuting
the input can change per-day labels. -/
theorem is_road_dry_perm_invariant (l₁ l₂ : List DailyRecord)
    (hperm : l₁.Perm l₂)
    (hnodup : (l₁.map (fun r => r.date_day)).Nodup) :
    is_road_dry l₁ = is_road_dry l₂ := by
  have hs := sortByDay_perm_eq l₁ l₂ hperm hnodup
  simp only [is_road_dry]
  rw [hs]

theorem is_road_dry_perm_invariant_witness :
    ([⟨1, 8, 0, 0⟩, ⟨0, 0, 0, 0⟩] : List DailyRecord).Perm
      [⟨0, 0, 0, 0⟩, ⟨1, 8, 0, 0⟩] ∧
    (([⟨1, 8, 0, 0⟩, ⟨0, 0, 0, 0⟩] : List DailyRecord).map
      (fun r => r.date_day)).Nodup ∧
    is_road_dry [⟨1, 8, 0, 0⟩, ⟨0, 0, 0, 0⟩] =
      is_road_dry [⟨0, 0, 0, 0⟩, ⟨1, 8, 0, 0⟩] :=
  ⟨by decide, by decide,
    is_road_dry_perm_invariant [⟨1, 8, 0, 0⟩, ⟨0, 0, 0, 0⟩]
      [⟨0, 0, 0, 0⟩, ⟨1, 8, 0, 0⟩] (by decide) (by decide)⟩

/-- C8 counterexample: on the empty sequence `is_road_dry` does not fail;
the window conditions hold vacuously and it returns the verdict
`true`. -/
theorem is_road_dry_empty_counterexample :
    is_road_dry ([] : List DailyRecord) = true := by
  simp [is_road_dry, sortByDay, lastN]

/-- C8 amended: whenever the last-2-by-day window is empty (in
particular on the empty sequence), `is_road_dry` returns `true`
vacuously instead of raising an error. -/
theorem is_road_dry_vacuous_window (l : List DailyRecord)
    (h : lastN 2 (sortByDay l) = []) :
    is_road_dry l = true := by
  simp [is_road_dry, h]

theorem is_road_dry_vacuous_window_witness :
    lastN 2 (sortByDay ([] : List DailyRecord)) = [] ∧
    is_road_dry ([] : List DailyRecord) = true := by
  have hw : lastN 2 (sortByDay ([] : List DailyRecord)) = [] := by
    simp [sortByDay, lastN]
  exact ⟨hw, is_road_dry_vacuous_window [] hw⟩

/-- The fields of a record that `estimate_next_dry_day` reads: day, rain
and humidity (`temperature_2m` is display-only). -/
def coreProj (r : DailyRecord) : Nat × ℚ × ℚ :=
  (r.date_day, r.rain, r.relative_humidity_2m)

/-- C9: with the ambient clock read modelled as the explicit `today`
argument, `estimate_next_dry_day` is a pure deterministic function of
`today` and of the day/rain/humidity fields of the records: two
sequences agreeing on those fields give equal results for every `today`,
whatever their display-only fields. -/
theorem estimate_next_dry_day_deterministic (l₁ l₂ : List DailyRecord)
    (h : l₁.map coreProj = l₂.map coreProj) (today : Nat) :
    estimate_next_dry_day l₁ today = estimate_next_dry_day l₂ today := by
  induction l₁ generalizing l₂ with
  | nil =>
    cases l₂ with
    | nil => rfl
    | cons b t₂ => simp at h
  | cons a t ih =>
    cases l₂ with
    | nil => simp at h
    | cons b t₂ =>
      simp only [List.map_cons, List.cons.injEq] at h
      obtain ⟨hab, ht⟩ := h
      have h1 : a.date_day = b.date_day := congrArg (fun p => p.1) hab
      have h2 : a.rain = b.rain := congrArg (fun p => p.2.1) hab
      have h3 : a.relative_humidity_2m = b.relative_humidity_2m :=
        congrArg (fun p => p.2.2) hab
      simp only [estimate_next_dry_day, h1, h2, h3, ih t₂ ht]

theorem estimate_next_dry_day_deterministic_witness :
    ([⟨0, 9, 99, 10⟩, ⟨1, 2, 40, 10⟩] : List DailyRecord).map coreProj =
      ([⟨0, 9, 99, 25⟩, ⟨1, 2, 40, 0⟩] : List DailyRecord).map coreProj ∧
    estimate_next_dry_day [⟨0, 9, 99, 10⟩, ⟨1, 2, 40, 10⟩] 0 =
      estimate_next_dry_day [⟨0, 9, 99, 25⟩, ⟨1, 2, 40, 0⟩] 0 ∧
    estimate_next_dry_day [⟨0, 9, 99, 10⟩, ⟨1, 2, 40, 10⟩] 0 = some 1 :=
  ⟨by decide,
    estimate_next_dry_day_deterministic [⟨0, 9, 99, 10⟩, ⟨1, 2, 40, 10⟩]
      [⟨0, 9, 99, 25⟩, ⟨1, 2, 40, 0⟩] (by decide) 0,
    by decide⟩

theorem noRain_all_dry (d : Nat) (l : List DailyRecord)
    (hnorain : ∀ r ∈ l, r.rain ≤ 5) :
    ∀ a ∈ roadAnnotate false d l, a.road_status = RoadStatus.Dry := by
  induction l generalizing d with
  | nil => simp [roadAnnotate]
  | cons r rs ih =>
    have hr : ¬ 5 < r.rain :=
      not_lt.mpr (hnorain r (List.mem_cons_self r rs))
    have hstep : step false d r = (RoadStatus.Dry, false, d) := by
      simp [step, hr]
    intro a ha
    simp only [roadAnnotate, hstep, List.mem_cons] at ha
    rcases ha with ha | ha
    · rw [ha]
    · exact ih d (fun r' hr' => hnorain r' (List.mem_cons_of_mem r hr')) a ha

theorem step_flagTrue_mud (m : Bool) (d : Nat) (r : DailyRecord)
    (h : (step m d r).2.1 = true) : (step m d r).1 = RoadStatus.Mud := by
  by_cases h5 : 5 < r.rain
  · simp [step, h5]
  · cases m with
    | true =>
      by_cases hc : d + 1 < 2 ∨ 90 < r.relative_humidity_2m
      · simp [step, h5, hc]
      · simp [step, h5, hc] at h
    | false => simp [step, h5] at h

theorem mud_has_cause (l : List DailyRecord) :
    ∀ (m : Bool) (d i : Nat) (a : AnnotatedRecord),
      (roadAnnotate m d l)[i]? = some a →
      a.road_status = RoadStatus.Mud →
      5 < a.row.rain ∨ (i = 0 ∧ m = true) ∨
        (0 < i ∧ ∃ a', (roadAnnotate m d l)[i - 1]? = some a' ∧
          a'.road_status = RoadStatus.Mud) := by
  induction l with
  | nil =>
    intro m d i a ha _
    simp [roadAnnotate] at ha
  | cons r rs ih =>
    intro m d i a ha hmud
    cases i with
    | zero =>
      simp only [roadAnnotate, List.getElem?_cons_zero,
        Option.some.injEq] at ha
      subst ha
      simp only at hmud
      by_cases hr5 : 5 < r.rain
      · exact Or.inl hr5
      · cases hm : m with
        | true => exact Or.inr (Or.inl ⟨rfl, rfl⟩)
        | false =>
          exfalso
          rw [hm] at hmud
          simp [step, hr5] at hmud
    | succ j =>
      simp only [roadAnnotate, List.getElem?_cons_succ] at ha
      rcases ih _ _ j a ha hmud with h | ⟨hj, hflag⟩ | ⟨hj, a', ha', hmud'⟩
      · exact Or.inl h
      · subst hj
        refine Or.inr (Or.inr ⟨Nat.zero_lt_one, ?_⟩)
        refine ⟨⟨r, decide (5 < r.rain), decide (90 < r.relative_humidity_2m),
          (step m d r).1⟩, ?_, ?_⟩
        · simp [roadAnnotate]
        · exact step_flagTrue_mud m d r hflag
      · cases j with
        | zero => exact absurd hj (lt_irrefl 0)
        | succ k =>
          refine Or.inr (Or.inr ⟨Nat.succ_pos _, a', ?_, hmud'⟩)
          simpa [roadAnnotate] using ha'

/-- C10: if no record of the sequence has `rain > 5`, every day is
labeled `Dry` — high humidity alone never produces `Mud`; and every
`Mud`-labeled day either has `rain > 5` itself or immediately follows a
`Mud`-labeled day. -/
theorem no_heavy_rain_all_dry (l : List DailyRecord) :
    ((∀ r ∈ l, r.rain ≤ 5) →
      ∀ a ∈ road_status_per_day l, a.road_status = RoadStatus.Dry) ∧
    (∀ i a, (road_status_per_day l)[i]? = some a →
      a.road_status = RoadStatus.Mud →
      (5 : ℚ) < a.row.rain ∨ (0 < i ∧ ∃ a',
        (road_status_per_day l)[i - 1]? = some a' ∧
        a'.road_status = RoadStatus.Mud)) := by
  constructor
  · intro hnorain
    exact noRain_all_dry 99 l hnorain
  · intro i a ha hmud
    rcases mud_has_cause l false 99 i a ha hmud with h | ⟨_, hm⟩ | h
    · exact Or.inl h
    · exact absurd hm (by simp)
    · exact Or.inr h

theorem no_heavy_rain_all_dry_witness :
    (∀ r ∈ ([⟨0, 0, 95, 0⟩, ⟨1, 3, 99, 0⟩] : List DailyRecord),
      r.rain ≤ 5) ∧
    (∀ a ∈ road_status_per_day [⟨0, 0, 95, 0⟩, ⟨1, 3, 99, 0⟩],
      a.road_status = RoadStatus.Dry) :=
  ⟨by decide,
    (no_heavy_rain_all_dry [⟨0, 0, 95, 0⟩, ⟨1, 3, 99, 0⟩]).1 (by decide)⟩
